import Mathlib

/-!
A verification development for the VaultVerse credential-vault server.

The JavaScript source is embedded shallowly:

* Byte strings are `List Nat` with every element `< 256`; JavaScript strings
  that the code manipulates character by character are `List Char`.
* The AES-256-CBC primitive used by `crypto.createCipheriv` is a parameter:
  an abstract 16-byte block permutation `E` with inverse `D`.  CBC chaining,
  PKCS`#`7 padding, hex encoding and the `iv:ciphertext` wire format are
  modelled concretely, exactly as the code composes them.
* The SQLite tables behind the session and user queries are association
  lists of rows; each SQL statement of the source is translated to the
  corresponding `find?` / `map` / `any` over those rows.
* Randomness (the per-call IV, token generation) is passed in explicitly;
  hashing primitives (sha256 `hashToken`, bcrypt comparison, JWT signing
  and verification) are parameters of the functions that call them.
* A `throw` that a caller catches and converts is modelled as `Option` or
  `Except`; JavaScript truthiness tests on strings compare against `""`.
-/

namespace VaultVerse

/-! ### Bytes, hex encoding, and the colon-delimited wire format -/

/-- One hex digit, lowercase, as produced by `Buffer.toString of hex`:
values below ten map into the decimal digit characters, ten to fifteen
into the code points of the letters a to f. -/
def hexDigitChar (n : Nat) : Char :=
  if n < 10 then Char.ofNat (48 + n)
  else if n < 16 then Char.ofNat (87 + n)
  else 'f'

/-- Decode one lowercase hex digit (the digits the code itself emits),
reading the value off the character code. -/
def hexDecodeDigit (c : Char) : Option Nat :=
  if 48 ≤ c.toNat ∧ c.toNat ≤ 57 then some (c.toNat - 48)
  else if 97 ≤ c.toNat ∧ c.toNat ≤ 102 then some (c.toNat - 87)
  else none

/-- `Buffer.toString('hex')`: two lowercase hex digits per byte. -/
def hexEncode (bs : List Nat) : List Char :=
  bs.flatMap (fun b => [hexDigitChar (b / 16), hexDigitChar (b % 16)])

/-- `Buffer.from(s, 'hex')` on well-formed lowercase input; digit pairs. -/
def hexDecode : List Char → Option (List Nat)
  | [] => some []
  | [_] => none
  | c1 :: c2 :: rest => do
    let h ← hexDecodeDigit c1
    let lo ← hexDecodeDigit c2
    let bs ← hexDecode rest
    pure ((16 * h + lo) :: bs)

/-- `s.includes(':')`. -/
def hasColon (s : List Char) : Bool :=
  s.any (fun c => c == ':')

/-- `s.split(':')` from JavaScript: the list of colon-separated segments. -/
def splitColon : List Char → List (List Char)
  | [] => [[]]
  | c :: rest =>
    if c = ':' then [] :: splitColon rest
    else
      match splitColon rest with
      | [] => [[c]]
      | a :: as => (c :: a) :: as

/-! ### CBC mode with PKCS`#`7 padding over an abstract block cipher -/

/-- Byte-wise xor of two equal-length byte strings. -/
def xorBytes (a b : List Nat) : List Nat :=
  List.zipWith (fun x y => x ^^^ y) a b

/-- CBC encryption over 16-byte blocks: each block is xor-ed with the
previous ciphertext block (initially the IV) before the block cipher `E`. -/
def cbcEncrypt (E : List Nat → List Nat) (prev : List Nat) :
    List (List Nat) → List (List Nat)
  | [] => []
  | b :: bs =>
    let c := E (xorBytes b prev)
    c :: cbcEncrypt E c bs

/-- CBC decryption with block cipher inverse `D`. -/
def cbcDecrypt (D : List Nat → List Nat) (prev : List Nat) :
    List (List Nat) → List (List Nat)
  | [] => []
  | c :: cs => xorBytes (D c) prev :: cbcDecrypt D c cs

/-- Split a byte string into 16-byte blocks (the last one possibly short). -/
def toBlocks (l : List Nat) : List (List Nat) :=
  if l = [] then []
  else l.take 16 :: toBlocks (l.drop 16)
termination_by l.length
decreasing_by
  simp only [List.length_drop]
  cases l with
  | nil => simp_all
  | cons a as => simp; omega

/-- PKCS`#`7 padding as applied by `cipher.update`/`cipher.final` for
aes-256-cbc: append `16 - len % 16` copies of that same value. -/
def pkcs7Pad (l : List Nat) : List Nat :=
  let padLen := 16 - l.length % 16
  l ++ List.replicate padLen padLen

/-- PKCS`#`7 padding removal as checked by `decipher.final`: the last byte
names the pad length, every pad byte must equal it; otherwise the decipher
throws (modelled as `none`). -/
def pkcs7Unpad (l : List Nat) : Option (List Nat) :=
  match l.getLast? with
  | none => none
  | some n =>
    if 1 ≤ n ∧ n ≤ 16 ∧ n ≤ l.length ∧ (l.drop (l.length - n)).all (fun x => x == n)
    then some (l.take (l.length - n))
    else none

/-! ### `encryptData` / `decryptData` (src/unnamed/part_006 lines 491-542)

The master key is fixed inside the abstract block cipher pair `E`, `D`
(the code reads `config.encryption.aesKey` once).  The random IV drawn by
`crypto.randomBytes(16)` is an explicit argument.  A thrown error is
`none`. -/

/-- `encryptData(plaintext)`: reject empty input, CBC-encrypt the PKCS`#`7
padded plaintext under the master-key block cipher `E` with the fresh IV,
and return `ivHex ++ ":" ++ ciphertextHex`. -/
def encryptData (E : List Nat → List Nat) (iv plaintext : List Nat) :
    Option (List Char) :=
  if plaintext = [] then none
  else
    some (hexEncode iv ++ ':' ::
      hexEncode (cbcEncrypt E iv (toBlocks (pkcs7Pad plaintext))).flatten)

/-- `decryptData(encryptedData)`: require a colon, split, hex-decode the
IV segment and the ciphertext segment, CBC-decrypt with the master-key
block cipher inverse `D`, and strip the padding.  `createDecipheriv`
insists on a 16-byte IV and `decipher.final` on a nonempty ciphertext of
whole blocks; violations throw, modelled as `none`. -/
def decryptData (D : List Nat → List Nat) (encryptedData : List Char) :
    Option (List Nat) :=
  if ¬ hasColon encryptedData then none
  else
    match splitColon encryptedData with
    | p0 :: p1 :: _ => do
      let iv ← hexDecode p0
      let ct ← hexDecode p1
      if iv.length = 16 ∧ ct ≠ [] ∧ ct.length % 16 = 0 then
        pkcs7Unpad (cbcDecrypt D iv (toBlocks ct)).flatten
      else none
    | _ => none

/-! ### Database rows (schema of src/unnamed/part_008)

Timestamps are milliseconds since the epoch; SQLite `datetime` comparisons
become `Nat` comparisons.  `NULL` columns are `Option`. -/

/-- A row of the `users` table. -/
structure UserRow where
  id : Nat
  username : String
  email : String
  password_hash : String
  login_attempts : Nat
  locked_until : Option Nat
  last_login : Option Nat
  is_active : Bool
deriving Repr, DecidableEq

/-- A row of the `sessions` table. -/
structure SessionRow where
  id : Nat
  user_id : Nat
  token_hash : String
  refresh_token_hash : String
  expires_at : Nat
  last_activity : Nat
  is_valid : Bool
deriving Repr, DecidableEq

/-- The mutable database state the security core touches. -/
structure DB where
  users : List UserRow
  sessions : List SessionRow
deriving Repr, DecidableEq

/-! ### JWT payloads (src/unnamed/part_006 lines 10-98)

`jwt.verify` (signature, expiry, issuer, audience) is abstracted into a
parameter `jwtVerify : String → Option payload`: `none` when verification
throws, `some` of the decoded claims otherwise. -/

/-- Claims of an access token as produced by `generateAccessToken`. -/
structure AccessPayload where
  userId : Nat
  username : String
  email : String
  type : String
deriving Repr, DecidableEq

/-- Claims of a refresh token as produced by `generateRefreshToken`. -/
structure RefreshPayload where
  userId : Nat
  tokenHash : String
  type : String
deriving Repr, DecidableEq

/-- `verifyAccessToken(token)` (part_006 lines 52-73): abstract JWT
verification plus the `decoded.type !== 'access'` check; `none` stands
for every `{valid: false}` outcome. -/
def verifyAccessToken (jwtVerify : String → Option AccessPayload)
    (token : String) : Option AccessPayload :=
  match jwtVerify token with
  | none => none
  | some d => if d.type = "access" then some d else none

/-- `verifyRefreshToken(token)` (part_006 lines 79-98): abstract JWT
verification plus the `decoded.type !== 'refresh'` check. -/
def verifyRefreshToken (jwtVerify : String → Option RefreshPayload)
    (token : String) : Option RefreshPayload :=
  match jwtVerify token with
  | none => none
  | some d => if d.type = "refresh" then some d else none

/-! ### Session store (src/unnamed/part_006 lines 135-186, 257-307) -/

/-- The WHERE clause of the `validateSession` query: token hash matches,
`is_valid = 1`, not expired, and the JOIN finds an active owner row. -/
def sessionLive (db : DB) (now : Nat) (tokenHash : String)
    (s : SessionRow) : Bool :=
  s.token_hash == tokenHash && s.is_valid && decide (now < s.expires_at) &&
    db.users.any (fun u => u.id == s.user_id && u.is_active)

/-- `validateSession(token)` (part_006 lines 135-166): hash the presented
token, run the query; on a hit also bump `last_activity` of that row.
`getOne` returns the first matching row. -/
def validateSession (hashToken : String → String) (db : DB) (now : Nat)
    (token : String) : Option SessionRow × DB :=
  let tokenHash := hashToken token
  match db.sessions.find? (sessionLive db now tokenHash) with
  | none => (none, db)
  | some s =>
    (some s,
      { db with
        sessions := db.sessions.map (fun r =>
          if r.id = s.id then { r with last_activity := now } else r) })

/-- `invalidateSession(token)` (part_006 lines 172-186): set
`is_valid = 0` on every session whose stored hash equals the hash of the
presented token; report whether any row was touched. -/
def invalidateSession (hashToken : String → String) (db : DB)
    (token : String) : Bool × DB :=
  let tokenHash := hashToken token
  (db.sessions.any (fun s => s.token_hash == tokenHash),
    { db with
      sessions := db.sessions.map (fun s =>
        if s.token_hash = tokenHash then { s with is_valid := false }
        else s) })

/-- Outcome of the `authenticateToken` middleware. -/
inductive AuthResult where
  | noToken
  | invalidToken
  | invalidSession
  | ok (userId : Nat) (username email : String) (session : SessionRow)
deriving Repr, DecidableEq

/-- `authenticateToken` middleware (src/unnamed/part_003 lines 8-58):
extract the bearer token, verify the JWT signature and type, then
cross-check the session row in the database; each failing stage returns
its own 401. -/
def authenticateToken (jwtVerify : String → Option AccessPayload)
    (hashToken : String → String) (db : DB) (now : Nat)
    (token? : Option String) : AuthResult × DB :=
  match token? with
  | none => (.noToken, db)
  | some token =>
    match verifyAccessToken jwtVerify token with
    | none => (.invalidToken, db)
    | some d =>
      match validateSession hashToken db now token with
      | (none, db1) => (.invalidSession, db1)
      | (some s, db1) => (.ok d.userId d.username d.email s, db1)

/-- `datetime('now', '+7 days')` offset in milliseconds. -/
def sevenDaysMs : Nat := 7 * 24 * 60 * 60 * 1000

/-- Outcome of `refreshAccessToken`. -/
inductive RefreshResult where
  | ok (accessToken : String) (userId : Nat) (username email : String)
  | err (msg : String)
deriving Repr, DecidableEq

/-- `refreshAccessToken(refreshToken)` (part_006 lines 257-307): verify
the refresh JWT; look up a live session by the embedded refresh-token
hash; look up the active owner by the embedded user id; on success mint a
new access token (abstracted as `generateAccessToken`), store its hash
and a fresh expiry on that session row. -/
def refreshAccessToken (jwtVerify : String → Option RefreshPayload)
    (hashToken : String → String) (generateAccessToken : UserRow → String)
    (db : DB) (now : Nat) (refreshToken : String) : RefreshResult × DB :=
  match verifyRefreshToken jwtVerify refreshToken with
  | none => (.err "Refresh token tidak valid", db)
  | some d =>
    match db.sessions.find? (fun s =>
        s.refresh_token_hash == d.tokenHash && s.is_valid) with
    | none => (.err "Refresh token tidak valid atau telah dicabut", db)
    | some s =>
      match db.users.find? (fun u => u.id == d.userId && u.is_active) with
      | none => (.err "User tidak ditemukan atau tidak aktif", db)
      | some u =>
        let newAccessToken := generateAccessToken u
        let newTokenHash := hashToken newAccessToken
        (.ok newAccessToken u.id u.username u.email,
          { db with
            sessions := db.sessions.map (fun r =>
              if r.id = s.id then
                { r with token_hash := newTokenHash,
                         expires_at := now + sevenDaysMs }
              else r) })

/-! ### `sanitizeInput` (src/unnamed/part_006 lines 688-695)

`String.trim`/`String.replace` do not reduce well in the kernel, so trim
and the global `[<>]` removal are written over the character list with the
same semantics: strip leading and trailing whitespace, drop every `<` and
`>`, truncate to 1000 characters. -/

/-- `sanitizeInput(input)` for string input. -/
def sanitizeInput (s : String) : String :=
  let trimmed :=
    ((s.toList.dropWhile Char.isWhitespace).reverse.dropWhile
      Char.isWhitespace).reverse
  String.mk ((trimmed.filter (fun c => !(c == '<' || c == '>'))).take 1000)

/-! ### `login` (src/unnamed/part_005 lines 163-279)

Modelled through the credential check, the lockout gate and the
users-table update.  The success-path token minting and session insert
(lines 240-270) do not touch the `users` table and are outside the
lockout claims, so the success result carries the user id only.  The
bcrypt comparison is the parameter `verifyPassword`; the third component
of the result records whether that parameter was invoked, which in the
code happens exactly when control reaches line 209. -/

/-- `Math.ceil((unlockTime - now) / 60000)` for `now < unlockTime`. -/
def minutesLeft (unlockTime now : Nat) : Nat :=
  (unlockTime - now + 59999) / 60000

/-- `30 * 60000` milliseconds: the lock duration of part_005 line 219. -/
def lockMs : Nat := 30 * 60000

/-- Outcome of the `login` controller. -/
inductive LoginResult where
  | missingFields
  | unknownUser
  | inactive
  | locked (minutesLeft : Nat)
  | badCredentials (attempt : Nat)
  | success (userId : Nat)
deriving Repr, DecidableEq

/-- Lines 209-270 of part_005: the part of `login` after the lock gate,
from the bcrypt comparison onward. -/
def loginVerify (verifyPw : String → String → Bool) (db : DB) (now : Nat)
    (password : String) (user : UserRow) : LoginResult × DB × Bool :=
  if verifyPw password user.password_hash then
    (.success user.id,
      { db with
        users := db.users.map (fun x =>
          if x.id = user.id then
            { x with login_attempts := 0, locked_until := none,
                     last_login := some now }
          else x) },
      true)
  else
    let newAttempts := user.login_attempts + 1
    (.badCredentials newAttempts,
      { db with
        users := db.users.map (fun x =>
          if x.id = user.id then
            if 5 ≤ newAttempts then
              { x with login_attempts := newAttempts,
                       locked_until := some (now + lockMs) }
            else { x with login_attempts := newAttempts }
          else x) },
      true)

/-- `login(req, res)` reduced to its state effect: result, next database
state, and whether the bcrypt comparator ran. -/
def login (verifyPw : String → String → Bool) (db : DB) (now : Nat)
    (identifier password : String) : LoginResult × DB × Bool :=
  if identifier = "" ∨ password = "" then (.missingFields, db, false)
  else
    let cleanIdentifier := sanitizeInput identifier
    match db.users.find? (fun u =>
        u.username == cleanIdentifier || u.email == cleanIdentifier) with
    | none => (.unknownUser, db, false)
    | some user =>
      if ¬ user.is_active then (.inactive, db, false)
      else
        match user.locked_until with
        | some t =>
          if now < t then (.locked (minutesLeft t now), db, false)
          else loginVerify verifyPw db now password user
        | none => loginVerify verifyPw db now password user

/-! ### `verifyPassword` (src/unnamed/part_006 lines 478-485)

`bcrypt.compare` is the parameter; `Except.error` is a rejected promise.
The catch block of the source converts every error into `false`, so the
modelled function is `Except`-valued only to make "raises" expressible:
it never actually produces `Except.error`. -/

/-- `verifyPassword(password, hash)`. -/
def verifyPassword (bcryptCompare : String → String → Except String Bool)
    (password hash : String) : Except String Bool :=
  match bcryptCompare password hash with
  | .ok b => .ok b
  | .error _ => .ok false

/-! ### Export codec (src/unnamed/part_006 lines 548-593)

A JavaScript object literal is an association list of field name/value
pairs; `JSON.stringify`/`JSON.parse` of the container is the identity on
that structure.  `CryptoJS.AES.encrypt`/`decrypt` under a passphrase is
an abstract pair `encP`/`decP`; `decP` returns `none` when the UTF-8
decode of the result throws.  Serialization of the wrapped data value is
the abstract pair `stringifyData`/`parseData`. -/

/-- `customKey || config.encryption.exportKey`: JavaScript falsy-or. -/
def jsOr (customKey : Option String) (defaultKey : String) : String :=
  match customKey with
  | some k => if k = "" then defaultKey else k
  | none => defaultKey

/-- Field lookup plus the JavaScript truthiness test `!pkg.field`. -/
def lookupTruthy (pkg : List (String × String)) (field : String) :
    Option String :=
  match pkg.lookup field with
  | some v => if v = "" then none else some v
  | none => none

/-- `encryptExportData(data, customKey)`: encrypt the serialized data
under the chosen passphrase and wrap it with version and timestamp
metadata.  `ts` is `new Date().toISOString()`. -/
def encryptExportData {α : Type} (encP : String → String → String)
    (stringifyData : α → String) (exportKey : String) (ts : String)
    (data : α) (customKey : Option String) : List (String × String) :=
  let key := jsOr customKey exportKey
  [("version", "1.0"), ("timestamp", ts),
   ("data", encP key (stringifyData data))]

/-- `decryptImportData(encryptedPackage, customKey)`: require truthy
`version` and `data` fields, decrypt, reject an empty decryption result,
parse the payload.  Every thrown error is `none`. -/
def decryptImportData {α : Type} (decP : String → String → Option String)
    (parseData : String → Option α) (exportKey : String)
    (pkg : List (String × String)) (customKey : Option String) : Option α :=
  let key := jsOr customKey exportKey
  match lookupTruthy pkg "version", lookupTruthy pkg "data" with
  | some _, some d =>
    match decP key d with
    | none => none
    | some s => if s = "" then none else parseData s
  | _, _ => none

/-! ### Concrete fixtures used by witnesses -/

/-- A concrete active user row with no failed attempts. -/
def wAlice : UserRow :=
  { id := 1, username := "alice", email := "a@b.c", password_hash := "h",
    login_attempts := 0, locked_until := none, last_login := none,
    is_active := true }

/-- A store holding only `wAlice`. -/
def wDb : DB := { users := [wAlice], sessions := [] }

/-- `wAlice` after five failed attempts: locked until time 1000. -/
def wAliceLocked : UserRow :=
  { wAlice with login_attempts := 5, locked_until := some 1000 }

/-- A store holding only `wAliceLocked`. -/
def wDbLocked : DB := { users := [wAliceLocked], sessions := [] }

/-! ## Theorems -/

/-! ### Hex and wire-format lemmas -/

theorem hexDecodeDigit_hexDigitChar (d : Nat) (h : d < 16) :
    hexDecodeDigit (hexDigitChar d) = some d := by
  interval_cases d <;> decide

theorem hexDigitChar_ne_colon (n : Nat) : hexDigitChar n ≠ ':' := by
  rcases Nat.lt_or_ge n 16 with h | h
  · interval_cases n <;> decide
  · rw [hexDigitChar, if_neg (by omega), if_neg (by omega)]
    decide

theorem hexDecode_hexEncode (bs : List Nat) (h : ∀ b ∈ bs, b < 256) :
    hexDecode (hexEncode bs) = some bs := by
  induction bs with
  | nil => rfl
  | cons b rest ih =>
    have hb : b < 256 := h b (by simp)
    have h1 : b / 16 < 16 := by omega
    have h2 : b % 16 < 16 := by omega
    simp only [hexEncode, List.flatMap_cons, List.cons_append,
      List.nil_append, List.singleton_append]
    simp only [hexDecode, hexDecodeDigit_hexDigitChar _ h1,
      hexDecodeDigit_hexDigitChar _ h2, Option.bind_eq_bind,
      Option.some_bind]
    have ih' : hexDecode (rest.flatMap fun x =>
        [hexDigitChar (x / 16), hexDigitChar (x % 16)]) = some rest :=
      ih (fun x hx => h x (by simp [hx]))
    rw [ih']
    simp [Nat.div_add_mod b 16]

theorem colon_not_mem_hexEncode (bs : List Nat) : ':' ∉ hexEncode bs := by
  intro hmem
  simp only [hexEncode, List.mem_flatMap] at hmem
  obtain ⟨b, _, hb⟩ := hmem
  simp only [List.mem_cons, List.mem_singleton] at hb
  rcases hb with hb | hb | hb
  · exact hexDigitChar_ne_colon _ hb.symm
  · exact hexDigitChar_ne_colon _ hb.symm
  · exact List.not_mem_nil _ hb

theorem hasColon_append_colon (a b : List Char) :
    hasColon (a ++ ':' :: b) = true := by
  simp [hasColon, List.any_append]

theorem splitColon_no_colon (a : List Char) (h : ':' ∉ a) :
    splitColon a = [a] := by
  induction a with
  | nil => rfl
  | cons c rest ih =>
    have hc : ¬ c = ':' := fun hc => h (by simp [hc])
    have hr : ':' ∉ rest := fun hm => h (by simp [hm])
    simp only [splitColon, if_neg hc, ih hr]

theorem splitColon_append_colon (a b : List Char) (h : ':' ∉ a) :
    splitColon (a ++ ':' :: b) = a :: splitColon b := by
  induction a with
  | nil => simp [splitColon]
  | cons c rest ih =>
    have hc : ¬ c = ':' := fun hc => h (by simp [hc])
    have hr : ':' ∉ rest := fun hm => h (by simp [hm])
    rw [List.cons_append]
    rw [show splitColon (c :: (rest ++ ':' :: b)) =
      if c = ':' then [] :: splitColon (rest ++ ':' :: b)
      else match splitColon (rest ++ ':' :: b) with
        | [] => [[c]]
        | a :: as => (c :: a) :: as from rfl]
    rw [if_neg hc, ih hr]

/-! ### CBC-mode lemmas -/

theorem xorBytes_length (a b : List Nat) :
    (xorBytes a b).length = min a.length b.length := by
  simp [xorBytes]

theorem xorBytes_xorBytes (a b : List Nat) (h : a.length = b.length) :
    xorBytes (xorBytes a b) b = a := by
  unfold xorBytes
  induction a generalizing b with
  | nil => simp
  | cons x xs ih =>
    cases b with
    | nil => simp at h
    | cons y ys =>
      simp only [List.zipWith_cons_cons]
      rw [Nat.xor_cancel_right]
      exact congrArg _ (ih ys (by simpa using h))

theorem xorBytes_lt_256 (a b : List Nat) (ha : ∀ x ∈ a, x < 256)
    (hb : ∀ x ∈ b, x < 256) : ∀ x ∈ xorBytes a b, x < 256 := by
  unfold xorBytes
  induction a generalizing b with
  | nil => simp
  | cons x xs ih =>
    cases b with
    | nil => simp
    | cons y ys =>
      intro z hz
      simp only [List.zipWith_cons_cons, List.mem_cons] at hz
      rcases hz with hz | hz
      · subst hz
        have h256 : (256 : Nat) = 2 ^ 8 := by norm_num
        rw [h256]
        exact Nat.xor_lt_two_pow (h256 ▸ ha x (by simp))
          (h256 ▸ hb y (by simp))
      · exact ih ys (fun u hu => ha u (by simp [hu]))
          (fun u hu => hb u (by simp [hu])) z hz

theorem cbcEncrypt_block_length (E : List Nat → List Nat)
    (hE16 : ∀ b, b.length = 16 → (E b).length = 16)
    (prev : List Nat) (hprev : prev.length = 16)
    (bs : List (List Nat)) (hbs : ∀ b ∈ bs, b.length = 16) :
    ∀ c ∈ cbcEncrypt E prev bs, c.length = 16 := by
  induction bs generalizing prev with
  | nil => simp [cbcEncrypt]
  | cons b rest ih =>
    intro c hc
    have hblen : (xorBytes b prev).length = 16 := by
      rw [xorBytes_length, hbs b (by simp), hprev]; rfl
    have hc16 : (E (xorBytes b prev)).length = 16 := hE16 _ hblen
    simp only [cbcEncrypt, List.mem_cons] at hc
    rcases hc with hc | hc
    · rw [hc]; exact hc16
    · exact ih _ hc16 (fun x hx => hbs x (by simp [hx])) c hc

theorem cbcEncrypt_length (E : List Nat → List Nat) (prev : List Nat)
    (bs : List (List Nat)) :
    (cbcEncrypt E prev bs).length = bs.length := by
  induction bs generalizing prev with
  | nil => rfl
  | cons b rest ih => simp [cbcEncrypt, ih]

theorem cbcEncrypt_bytes (E : List Nat → List Nat)
    (hEbytes : ∀ b, (∀ x ∈ b, x < 256) → ∀ x ∈ E b, x < 256)
    (prev : List Nat) (hprev : ∀ x ∈ prev, x < 256)
    (bs : List (List Nat)) (hbs : ∀ b ∈ bs, ∀ x ∈ b, x < 256) :
    ∀ c ∈ cbcEncrypt E prev bs, ∀ x ∈ c, x < 256 := by
  induction bs generalizing prev with
  | nil => simp [cbcEncrypt]
  | cons b rest ih =>
    intro c hc
    have hxb : ∀ x ∈ xorBytes b prev, x < 256 :=
      xorBytes_lt_256 _ _ (hbs b (by simp)) hprev
    have hcb : ∀ x ∈ E (xorBytes b prev), x < 256 := hEbytes _ hxb
    simp only [cbcEncrypt, List.mem_cons] at hc
    rcases hc with hc | hc
    · rw [hc]; exact hcb
    · exact ih _ hcb (fun y hy => hbs y (by simp [hy])) c hc

theorem cbcDecrypt_cbcEncrypt (E D : List Nat → List Nat)
    (hED : ∀ b, b.length = 16 → (∀ x ∈ b, x < 256) → D (E b) = b)
    (hE16 : ∀ b, b.length = 16 → (E b).length = 16)
    (hEbytes : ∀ b, (∀ x ∈ b, x < 256) → ∀ x ∈ E b, x < 256)
    (prev : List Nat) (hprev : prev.length = 16)
    (hprevB : ∀ x ∈ prev, x < 256)
    (bs : List (List Nat)) (hbs : ∀ b ∈ bs, b.length = 16)
    (hbsB : ∀ b ∈ bs, ∀ x ∈ b, x < 256) :
    cbcDecrypt D prev (cbcEncrypt E prev bs) = bs := by
  induction bs generalizing prev with
  | nil => rfl
  | cons b rest ih =>
    have hblen : (xorBytes b prev).length = 16 := by
      rw [xorBytes_length, hbs b (by simp), hprev]; rfl
    have hxbB : ∀ x ∈ xorBytes b prev, x < 256 :=
      xorBytes_lt_256 _ _ (hbsB b (by simp)) hprevB
    have hc16 : (E (xorBytes b prev)).length = 16 := hE16 _ hblen
    have hcB : ∀ x ∈ E (xorBytes b prev), x < 256 := hEbytes _ hxbB
    simp only [cbcEncrypt, cbcDecrypt]
    rw [hED _ hblen hxbB,
      xorBytes_xorBytes b prev (by rw [hbs b (by simp), hprev])]
    exact congrArg _ (ih _ hc16 hcB
      (fun x hx => hbs x (by simp [hx]))
      (fun x hx => hbsB x (by simp [hx])))

/-! ### Block-splitting and padding lemmas -/

theorem flatten_toBlocks (l : List Nat) : (toBlocks l).flatten = l := by
  by_cases h : l = []
  · subst h; rw [toBlocks]; simp
  · rw [toBlocks, if_neg h, List.flatten_cons,
      flatten_toBlocks (l.drop 16), List.take_append_drop]
termination_by l.length
decreasing_by
  simp only [List.length_drop]
  cases l with
  | nil => simp_all
  | cons a as => simp; omega

theorem toBlocks_mem_length (l : List Nat) (hdvd : 16 ∣ l.length) :
    ∀ b ∈ toBlocks l, b.length = 16 := by
  intro b hb
  by_cases h : l = []
  · rw [h, toBlocks] at hb; simp at hb
  · have hpos : 0 < l.length := List.length_pos.mpr h
    have h16 : 16 ≤ l.length := Nat.le_of_dvd hpos hdvd
    rw [toBlocks, if_neg h, List.mem_cons] at hb
    rcases hb with hb | hb
    · rw [hb, List.length_take]; omega
    · exact toBlocks_mem_length (l.drop 16)
        (by rw [List.length_drop]; exact Nat.dvd_sub' hdvd (by norm_num))
        b hb
termination_by l.length
decreasing_by
  simp only [List.length_drop]
  cases l with
  | nil => simp_all
  | cons a as => simp; omega

theorem toBlocks_mem_subset (l : List Nat) :
    ∀ b ∈ toBlocks l, ∀ x ∈ b, x ∈ l := by
  intro b hb x hx
  by_cases h : l = []
  · rw [h, toBlocks] at hb; simp at hb
  · rw [toBlocks, if_neg h, List.mem_cons] at hb
    rcases hb with hb | hb
    · exact List.mem_of_mem_take (hb ▸ hx)
    · exact List.mem_of_mem_drop
        (toBlocks_mem_subset (l.drop 16) b hb x hx)
termination_by l.length
decreasing_by
  simp only [List.length_drop]
  cases l with
  | nil => simp_all
  | cons a as => simp; omega

theorem toBlocks_ne_nil (l : List Nat) (h : l ≠ []) : toBlocks l ≠ [] := by
  rw [toBlocks, if_neg h]
  simp

theorem pkcs7Pad_length_dvd (l : List Nat) : 16 ∣ (pkcs7Pad l).length := by
  simp only [pkcs7Pad, List.length_append, List.length_replicate]
  omega

theorem pkcs7Pad_ne_nil (l : List Nat) : pkcs7Pad l ≠ [] := by
  intro hcon
  apply congrArg List.length at hcon
  simp only [pkcs7Pad, List.length_append, List.length_replicate,
    List.length_nil] at hcon
  omega

theorem pkcs7Pad_bytes (l : List Nat) (h : ∀ x ∈ l, x < 256) :
    ∀ x ∈ pkcs7Pad l, x < 256 := by
  intro x hx
  simp only [pkcs7Pad, List.mem_append, List.mem_replicate] at hx
  rcases hx with hx | hx
  · exact h x hx
  · omega

theorem pkcs7Unpad_pkcs7Pad (l : List Nat) :
    pkcs7Unpad (pkcs7Pad l) = some l := by
  have hp1 : 1 ≤ 16 - l.length % 16 := by omega
  have hp16 : 16 - l.length % 16 ≤ 16 := by omega
  have hlast : (pkcs7Pad l).getLast? = some (16 - l.length % 16) := by
    rw [pkcs7Pad, List.getLast?_append]
    · simp [List.getLast?_replicate]
      omega
  have hlen : (pkcs7Pad l).length = l.length + (16 - l.length % 16) := by
    simp [pkcs7Pad]
  rw [pkcs7Unpad, hlast]
  dsimp only
  rw [if_pos]
  · rw [hlen, Nat.add_sub_cancel,
      show (pkcs7Pad l).take l.length = l from by
        rw [pkcs7Pad]; exact List.take_left l _]
  · refine ⟨hp1, hp16, by omega, ?_⟩
    rw [hlen, Nat.add_sub_cancel,
      show (pkcs7Pad l).drop l.length = List.replicate
        (16 - l.length % 16) (16 - l.length % 16) from by
        rw [pkcs7Pad]; exact List.drop_left l _]
    simp [List.all_eq_true, List.mem_replicate]

theorem toBlocks_flatten (L : List (List Nat))
    (h : ∀ b ∈ L, b.length = 16) : toBlocks L.flatten = L := by
  induction L with
  | nil => rw [List.flatten_nil, toBlocks]; simp
  | cons b bs ih =>
    have hb : b.length = 16 := h b (by simp)
    have hne : b ++ bs.flatten ≠ [] := by
      intro hcon
      apply congrArg List.length at hcon
      simp [hb] at hcon
    rw [List.flatten_cons, toBlocks, if_neg hne]
    congr 1
    · rw [← hb]; exact List.take_left b _
    · rw [show (b ++ bs.flatten).drop 16 = bs.flatten from by
        rw [← hb]; exact List.drop_left b _]
      exact ih (fun x hx => h x (by simp [hx]))

theorem flatten_length_of_blocks (L : List (List Nat))
    (h : ∀ b ∈ L, b.length = 16) : L.flatten.length = 16 * L.length := by
  induction L with
  | nil => simp
  | cons b bs ih =>
    simp only [List.flatten_cons, List.length_append, List.length_cons]
    rw [h b (by simp), ih (fun x hx => h x (by simp [hx]))]
    ring

/-! ### Claim theorems for the Secret Cipher -/

/-- C1: for every non-empty plaintext `P` (a byte string), decrypting the
result of encrypting `P` with the master key reproduces `P` exactly:
`decryptData (encryptData P) = P`.  The master-key AES block permutation
is abstract: `E` and `D` are mutually inverse byte-valued maps on
16-byte blocks; everything the JavaScript adds around that primitive
(PKCS`#`7 padding, CBC chaining, hex encoding, the `iv:ct` wire format
and its re-parsing) is concrete. -/
theorem encryptData_decryptData_roundtrip
    (E D : List Nat → List Nat)
    (hED : ∀ b, b.length = 16 → (∀ x ∈ b, x < 256) → D (E b) = b)
    (hE16 : ∀ b, b.length = 16 → (E b).length = 16)
    (hEbytes : ∀ b, (∀ x ∈ b, x < 256) → ∀ x ∈ E b, x < 256)
    (iv : List Nat) (hiv : iv.length = 16) (hivB : ∀ x ∈ iv, x < 256)
    (P : List Nat) (hP : P ≠ []) (hPB : ∀ x ∈ P, x < 256) :
    ∃ field, encryptData E iv P = some field ∧
      decryptData D field = some P := by
  have hbl : ∀ b ∈ toBlocks (pkcs7Pad P), b.length = 16 :=
    toBlocks_mem_length _ (pkcs7Pad_length_dvd P)
  have hbB : ∀ b ∈ toBlocks (pkcs7Pad P), ∀ x ∈ b, x < 256 :=
    fun b hb x hx =>
      pkcs7Pad_bytes P hPB x (toBlocks_mem_subset _ b hb x hx)
  have hencB16 : ∀ c ∈ cbcEncrypt E iv (toBlocks (pkcs7Pad P)),
      c.length = 16 :=
    cbcEncrypt_block_length E hE16 iv hiv _ hbl
  have hencBB : ∀ c ∈ cbcEncrypt E iv (toBlocks (pkcs7Pad P)),
      ∀ x ∈ c, x < 256 :=
    cbcEncrypt_bytes E hEbytes iv hivB _ hbB
  have hctB : ∀ x ∈ (cbcEncrypt E iv (toBlocks (pkcs7Pad P))).flatten,
      x < 256 := by
    intro x hx
    rw [List.mem_flatten] at hx
    obtain ⟨c, hc, hxc⟩ := hx
    exact hencBB c hc x hxc
  have hctlen : (cbcEncrypt E iv (toBlocks (pkcs7Pad P))).flatten.length =
      16 * (toBlocks (pkcs7Pad P)).length := by
    rw [flatten_length_of_blocks _ hencB16, cbcEncrypt_length]
  have hblne : toBlocks (pkcs7Pad P) ≠ [] :=
    toBlocks_ne_nil _ (pkcs7Pad_ne_nil P)
  have hctne : (cbcEncrypt E iv (toBlocks (pkcs7Pad P))).flatten ≠ [] := by
    intro hcon
    apply congrArg List.length at hcon
    rw [hctlen] at hcon
    simp only [List.length_nil] at hcon
    exact hblne (List.length_eq_zero.mp (by omega))
  have hctdvd :
      (cbcEncrypt E iv (toBlocks (pkcs7Pad P))).flatten.length % 16 = 0 := by
    rw [hctlen]; omega
  refine ⟨hexEncode iv ++ ':' ::
    hexEncode (cbcEncrypt E iv (toBlocks (pkcs7Pad P))).flatten,
    by rw [encryptData, if_neg hP], ?_⟩
  rw [decryptData, hasColon_append_colon, if_neg (by simp),
    splitColon_append_colon _ _ (colon_not_mem_hexEncode iv),
    splitColon_no_colon _ (colon_not_mem_hexEncode _)]
  dsimp only
  rw [hexDecode_hexEncode iv hivB, hexDecode_hexEncode _ hctB]
  simp only [Option.bind_eq_bind, Option.some_bind]
  rw [if_pos ⟨hiv, hctne, hctdvd⟩,
    toBlocks_flatten _ hencB16,
    cbcDecrypt_cbcEncrypt E D hED hE16 hEbytes iv hiv hivB _ hbl hbB,
    flatten_toBlocks]
  exact pkcs7Unpad_pkcs7Pad P

/-- Witness for C1: a concrete byte-valued block permutation (reduction
mod 256, which is the identity on byte blocks), a concrete IV and the
plaintext `hi`. -/
theorem encryptData_decryptData_roundtrip_witness :
    ∃ field,
      encryptData (fun b => b.map (fun x => x % 256))
        (List.replicate 16 7) [104, 105] = some field ∧
      decryptData (fun b => b.map (fun x => x % 256)) field =
        some [104, 105] :=
  encryptData_decryptData_roundtrip
    (fun b => b.map (fun x => x % 256)) (fun b => b.map (fun x => x % 256))
    (fun b _ hb => by
      show (b.map (fun x => x % 256)).map (fun x => x % 256) = b
      rw [List.map_map]
      conv_rhs => rw [← List.map_id b]
      exact List.map_congr_left (fun x hx => by
        simp [Nat.mod_eq_of_lt (hb x hx)]))
    (fun b hb16 => by simp [hb16])
    (fun b _ x hx => by
      rw [List.mem_map] at hx
      obtain ⟨y, _, hy⟩ := hx
      omega)
    (List.replicate 16 7) (by simp) (by decide)
    [104, 105] (by decide) (by decide)

/-- C8: `encryptData` prefixes the hex-encoded IV, so two calls that draw
distinct fresh IVs return different EncryptedField strings for the same
plaintext.  The per-call randomness of `crypto.randomBytes(16)` is
modelled by the explicit IV argument; this theorem is the deterministic
core of IV-freshness non-determinism. -/
theorem encryptData_distinct_iv_distinct_field
    (E : List Nat → List Nat) (iv1 iv2 : List Nat) (hne : iv1 ≠ iv2)
    (hB1 : ∀ x ∈ iv1, x < 256) (hB2 : ∀ x ∈ iv2, x < 256)
    (P : List Nat) (hP : P ≠ []) :
    encryptData E iv1 P ≠ encryptData E iv2 P := by
  intro hcon
  rw [encryptData, if_neg hP, encryptData, if_neg hP] at hcon
  have hfields := Option.some.inj hcon
  apply hne
  have h1 := congrArg splitColon hfields
  rw [splitColon_append_colon _ _ (colon_not_mem_hexEncode iv1),
    splitColon_append_colon _ _ (colon_not_mem_hexEncode iv2)] at h1
  have hhex : hexEncode iv1 = hexEncode iv2 := (List.cons.inj h1).1
  have h2 := congrArg hexDecode hhex
  rw [hexDecode_hexEncode _ hB1, hexDecode_hexEncode _ hB2] at h2
  exact Option.some.inj h2

/-- Witness for C8: two concrete distinct IVs on the plaintext `h`. -/
theorem encryptData_distinct_iv_distinct_field_witness :
    encryptData (fun b => b) (List.replicate 16 0) [104] ≠
      encryptData (fun b => b) (List.replicate 16 1) [104] :=
  encryptData_distinct_iv_distinct_field (fun b => b)
    (List.replicate 16 0) (List.replicate 16 1)
    (by decide) (by decide) (by decide) [104] (by decide)

/-! ### Claim theorems for the Token Authority -/

/-- C2: once `invalidateSession(t)` has returned, the session lookup for
`t` fails, so `authenticateToken` rejects `t` with the invalid-session
error — at every later time `now`, and even when the JWT signature check
still succeeds (`hsig`).  `invalidateSession` marks every row whose
stored digest equals the digest of `t`, so no live row can match. -/
theorem revokeSession_then_verifyAccessToken_fails
    (jwtVerify : String → Option AccessPayload)
    (hashToken : String → String) (db : DB) (now : Nat) (token : String)
    (hex : ∃ s ∈ db.sessions, s.token_hash = hashToken token)
    (hsig : (verifyAccessToken jwtVerify token).isSome) :
    (validateSession hashToken (invalidateSession hashToken db token).2
        now token).1 = none ∧
    (authenticateToken jwtVerify hashToken
        (invalidateSession hashToken db token).2 now (some token)).1 =
      AuthResult.invalidSession := by
  obtain ⟨s0, _, _⟩ := hex
  have hnone : ∀ (d : DB),
      ((invalidateSession hashToken db token).2).sessions.find?
        (sessionLive d now (hashToken token)) = none := by
    intro d
    rw [List.find?_eq_none]
    intro x hx
    simp only [invalidateSession, List.mem_map] at hx
    obtain ⟨s, _, rfl⟩ := hx
    by_cases hh : s.token_hash = hashToken token
    · simp [sessionLive, hh]
    · simp [sessionLive, hh]
  have hval : (validateSession hashToken
      (invalidateSession hashToken db token).2 now token).1 = none := by
    rw [validateSession]
    rw [hnone]
  refine ⟨hval, ?_⟩
  obtain ⟨d, hd⟩ := Option.isSome_iff_exists.mp hsig
  rw [authenticateToken, hd]
  dsimp only
  rw [show validateSession hashToken
      (invalidateSession hashToken db token).2 now token =
    (none, (invalidateSession hashToken db token).2) from by
      rw [validateSession, hnone]]

/-- Witness for C2: a one-user, one-session store; the raw token hashes
to the stored digest under the identity digest function. -/
theorem revokeSession_then_verifyAccessToken_fails_witness :
    (validateSession (fun s => s)
      (invalidateSession (fun s => s)
        { users := [{ id := 1, username := "alice", email := "a@b.c",
                      password_hash := "h", login_attempts := 0,
                      locked_until := none, last_login := none,
                      is_active := true }],
          sessions := [{ id := 1, user_id := 1, token_hash := "tok",
                         refresh_token_hash := "r", expires_at := 10,
                         last_activity := 0, is_valid := true }] }
        "tok").2 5 "tok").1 = none ∧
    (authenticateToken
      (fun _ => some { userId := 1, username := "alice", email := "a@b.c",
                       type := "access" })
      (fun s => s)
      (invalidateSession (fun s => s)
        { users := [{ id := 1, username := "alice", email := "a@b.c",
                      password_hash := "h", login_attempts := 0,
                      locked_until := none, last_login := none,
                      is_active := true }],
          sessions := [{ id := 1, user_id := 1, token_hash := "tok",
                         refresh_token_hash := "r", expires_at := 10,
                         last_activity := 0, is_valid := true }] }
        "tok").2 5 (some "tok")).1 = AuthResult.invalidSession :=
  revokeSession_then_verifyAccessToken_fails
    (fun _ => some { userId := 1, username := "alice", email := "a@b.c",
                     type := "access" })
    (fun s => s)
    { users := [{ id := 1, username := "alice", email := "a@b.c",
                  password_hash := "h", login_attempts := 0,
                  locked_until := none, last_login := none,
                  is_active := true }],
      sessions := [{ id := 1, user_id := 1, token_hash := "tok",
                     refresh_token_hash := "r", expires_at := 10,
                     last_activity := 0, is_valid := true }] }
    5 "tok"
    ⟨{ id := 1, user_id := 1, token_hash := "tok",
       refresh_token_hash := "r", expires_at := 10,
       last_activity := 0, is_valid := true }, by simp, rfl⟩
    (by rfl)

/-- C5: `refreshAccessToken` succeeds exactly when the refresh JWT
verifies, a session row with the embedded refresh-token digest and a set
valid flag exists, and the owner identity is still active; on failure the
database is untouched; on success the matched row's access-token digest
is replaced by the digest of the new token and its expiry becomes
`now + 7 days`, so (whenever the fresh digest differs from the old one)
the old access-token digest no longer matches the session. -/
theorem refreshAccessToken_spec
    (jv : String → Option RefreshPayload) (hashToken : String → String)
    (gen : UserRow → String) (db : DB) (now : Nat) (rt : String) :
    ((∃ tok uid un em db2, refreshAccessToken jv hashToken gen db now rt =
        (.ok tok uid un em, db2)) ↔
      ∃ d, verifyRefreshToken jv rt = some d ∧
        (∃ s ∈ db.sessions, s.refresh_token_hash = d.tokenHash ∧
          s.is_valid = true) ∧
        (∃ u ∈ db.users, u.id = d.userId ∧ u.is_active = true)) ∧
    (∀ e db2,
      refreshAccessToken jv hashToken gen db now rt = (.err e, db2) →
      db2 = db) ∧
    (∀ tok uid un em db2,
      refreshAccessToken jv hashToken gen db now rt =
        (.ok tok uid un em, db2) →
      ∃ d s, verifyRefreshToken jv rt = some d ∧
        db.sessions.find? (fun x =>
          x.refresh_token_hash == d.tokenHash && x.is_valid) = some s ∧
        db2.users = db.users ∧
        (∀ r ∈ db2.sessions, r.id = s.id →
          r.token_hash = hashToken tok ∧
          r.expires_at = now + sevenDaysMs) ∧
        (hashToken tok ≠ s.token_hash →
          ∀ r ∈ db2.sessions, r.id = s.id →
            r.token_hash ≠ s.token_hash)) := by
  rcases hjv : verifyRefreshToken jv rt with _ | d
  · simp only [refreshAccessToken, hjv]
    refine ⟨?_, ?_, ?_⟩
    · constructor
      · rintro ⟨tok, uid, un, em, db2, h⟩
        simp at h
      · rintro ⟨d, hd, _⟩
        simp at hd
    · intro e db2 h
      exact ((Prod.mk.injEq _ _ _ _).mp h).2.symm
    · intro tok uid un em db2 h
      simp at h
  · rcases hs : db.sessions.find? (fun x =>
        x.refresh_token_hash == d.tokenHash && x.is_valid) with _ | s
    · simp only [refreshAccessToken, hjv, hs]
      refine ⟨?_, ?_, ?_⟩
      · constructor
        · rintro ⟨tok, uid, un, em, db2, h⟩
          simp at h
        · rintro ⟨d', hd', ⟨s, hsm, hprop1, hprop2⟩, _⟩
          injection hd' with hd'
          subst hd'
          have hcon := List.find?_eq_none.mp hs s hsm
          simp [hprop1, hprop2] at hcon
      · intro e db2 h
        exact ((Prod.mk.injEq _ _ _ _).mp h).2.symm
      · intro tok uid un em db2 h
        simp at h
    · rcases hu : db.users.find? (fun u =>
          u.id == d.userId && u.is_active) with _ | u
      · simp only [refreshAccessToken, hjv, hs, hu]
        refine ⟨?_, ?_, ?_⟩
        · constructor
          · rintro ⟨tok, uid, un, em, db2, h⟩
            simp at h
          · rintro ⟨d', hd', _, ⟨u, hum, hprop1, hprop2⟩⟩
            injection hd' with hd'
            subst hd'
            have hcon := List.find?_eq_none.mp hu u hum
            simp [hprop1, hprop2] at hcon
        · intro e db2 h
          exact ((Prod.mk.injEq _ _ _ _).mp h).2.symm
        · intro tok uid un em db2 h
          simp at h
      · have hps := List.find?_some hs
        have hpu := List.find?_some hu
        simp only [Bool.and_eq_true, beq_iff_eq] at hps hpu
        simp only [refreshAccessToken, hjv, hs, hu]
        refine ⟨?_, ?_, ?_⟩
        · constructor
          · rintro ⟨tok, uid, un, em, db2, h⟩
            exact ⟨d, rfl,
              ⟨s, List.mem_of_find?_eq_some hs, hps.1, hps.2⟩,
              ⟨u, List.mem_of_find?_eq_some hu, hpu.1, hpu.2⟩⟩
          · intro _
            exact ⟨gen u, u.id, u.username, u.email, _, rfl⟩
        · intro e db2 h
          simp at h
        · intro tok uid un em db2 h
          obtain ⟨h1, h2⟩ := Prod.mk.inj h
          injection h1 with htok huid hun hem
          subst htok
          refine ⟨d, s, rfl, hs, by rw [← h2], ?_, ?_⟩
          · intro r hr hrid
            rw [← h2] at hr
            simp only [List.mem_map] at hr
            obtain ⟨x, hx, rfl⟩ := hr
            by_cases hxid : x.id = s.id
            · simp [hxid]
            · rw [if_neg hxid] at hrid ⊢
              exact absurd hrid hxid
          · intro hneq r hr hrid
            rw [((by
              intro r hr hrid
              rw [← h2] at hr
              simp only [List.mem_map] at hr
              obtain ⟨x, hx, rfl⟩ := hr
              by_cases hxid : x.id = s.id
              · simp [hxid]
              · rw [if_neg hxid] at hrid ⊢
                exact absurd hrid hxid : ∀ r ∈ db2.sessions, r.id = s.id →
                  r.token_hash = hashToken (gen u) ∧
                  r.expires_at = now + sevenDaysMs) r hr hrid).1]
            exact hneq

/-- Witness for C5: a store with one live session and one active user;
the identity digest function, a constant token generator, and a refresh
JWT whose claims point at that session and user.  The refresh succeeds. -/
theorem refreshAccessToken_spec_witness :
    ∃ tok uid un em db2,
      refreshAccessToken
        (fun _ => some { userId := 1, tokenHash := "rh",
                         type := "refresh" })
        (fun s => s) (fun _ => "newtok")
        { users := [{ id := 1, username := "alice", email := "a@b.c",
                      password_hash := "h", login_attempts := 0,
                      locked_until := none, last_login := none,
                      is_active := true }],
          sessions := [{ id := 1, user_id := 1, token_hash := "oldh",
                         refresh_token_hash := "rh", expires_at := 50,
                         last_activity := 0, is_valid := true }] }
        100 "rt" = (.ok tok uid un em, db2) :=
  (refreshAccessToken_spec
    (fun _ => some { userId := 1, tokenHash := "rh", type := "refresh" })
    (fun s => s) (fun _ => "newtok")
    { users := [{ id := 1, username := "alice", email := "a@b.c",
                  password_hash := "h", login_attempts := 0,
                  locked_until := none, last_login := none,
                  is_active := true }],
      sessions := [{ id := 1, user_id := 1, token_hash := "oldh",
                     refresh_token_hash := "rh", expires_at := 50,
                     last_activity := 0, is_valid := true }] }
    100 "rt").1.mpr
    ⟨{ userId := 1, tokenHash := "rh", type := "refresh" }, by decide,
      ⟨{ id := 1, user_id := 1, token_hash := "oldh",
         refresh_token_hash := "rh", expires_at := 50,
         last_activity := 0, is_valid := true }, by simp, rfl, rfl⟩,
      ⟨{ id := 1, username := "alice", email := "a@b.c",
         password_hash := "h", login_attempts := 0,
         locked_until := none, last_login := none,
         is_active := true }, by simp, rfl, rfl⟩⟩

/-- C10: a successful `refreshAccessToken` leaves the users table, every
row's id, owner id, refresh-token digest and valid flag unchanged (only
the access-token digest and expiry of the matched row change), so the
very same refresh token is accepted again by a subsequent refresh call:
refresh tokens are not rotated on use. -/
theorem refreshAccessToken_frame
    (jv : String → Option RefreshPayload) (hashToken : String → String)
    (gen : UserRow → String) (db : DB) (now : Nat) (rt : String)
    (tok : String) (uid : Nat) (un em : String) (db2 : DB)
    (hok : refreshAccessToken jv hashToken gen db now rt =
      (.ok tok uid un em, db2)) :
    db2.users = db.users ∧
    db2.sessions.map (fun r =>
        (r.id, r.user_id, r.refresh_token_hash, r.is_valid)) =
      db.sessions.map (fun r =>
        (r.id, r.user_id, r.refresh_token_hash, r.is_valid)) ∧
    ∀ now2, ∃ tok2,
      (refreshAccessToken jv hashToken gen db2 now2 rt).1 =
        .ok tok2 uid un em := by
  rcases hjv : verifyRefreshToken jv rt with _ | d
  · rw [refreshAccessToken, hjv] at hok
    simp at hok
  · rcases hs : db.sessions.find? (fun x =>
        x.refresh_token_hash == d.tokenHash && x.is_valid) with _ | s
    · rw [refreshAccessToken, hjv] at hok
      simp only at hok
      rw [hs] at hok
      simp at hok
    · rcases hu : db.users.find? (fun u =>
          u.id == d.userId && u.is_active) with _ | u
      · rw [refreshAccessToken, hjv] at hok
        simp only at hok
        rw [hs, hu] at hok
        simp at hok
      · rw [refreshAccessToken, hjv] at hok
        simp only at hok
        rw [hs, hu] at hok
        simp only at hok
        obtain ⟨h1, h2⟩ := Prod.mk.inj hok
        injection h1 with htok huid hun hem
        subst htok huid hun hem
        subst h2
        refine ⟨rfl, ?_, ?_⟩
        · rw [List.map_map]
          apply List.map_congr_left
          intro x _
          by_cases hxid : x.id = s.id
          · simp [hxid]
          · simp [hxid]
        · intro now2
          refine ⟨gen u, ?_⟩
          rw [refreshAccessToken, hjv]
          simp only
          rw [List.find?_map]
          rw [show (fun x : SessionRow =>
              x.refresh_token_hash == d.tokenHash && x.is_valid) ∘
            (fun r : SessionRow => if r.id = s.id then
              { r with token_hash := hashToken (gen u),
                       expires_at := now + sevenDaysMs }
              else r) = (fun x : SessionRow =>
              x.refresh_token_hash == d.tokenHash && x.is_valid) from by
            funext x
            by_cases hxid : x.id = s.id
            · simp [hxid]
            · simp [hxid]]
          rw [hs, Option.map_some', hu]

/-- Witness for C10: concrete one-session store; after a first refresh at
time 100, a second refresh of the same refresh token at time 200 also
succeeds for the same owner. -/
theorem refreshAccessToken_frame_witness :
    ∃ tok2,
      (refreshAccessToken
        (fun _ => some { userId := 1, tokenHash := "rh",
                         type := "refresh" })
        (fun s => s) (fun _ => "newtok")
        { users := [{ id := 1, username := "alice", email := "a@b.c",
                      password_hash := "h", login_attempts := 0,
                      locked_until := none, last_login := none,
                      is_active := true }],
          sessions := [{ id := 1, user_id := 1, token_hash := "newtok",
                         refresh_token_hash := "rh",
                         expires_at := 100 + sevenDaysMs,
                         last_activity := 0, is_valid := true }] }
        200 "rt").1 = .ok tok2 1 "alice" "a@b.c" :=
  (refreshAccessToken_frame
    (fun _ => some { userId := 1, tokenHash := "rh", type := "refresh" })
    (fun s => s) (fun _ => "newtok")
    { users := [{ id := 1, username := "alice", email := "a@b.c",
                  password_hash := "h", login_attempts := 0,
                  locked_until := none, last_login := none,
                  is_active := true }],
      sessions := [{ id := 1, user_id := 1, token_hash := "oldh",
                     refresh_token_hash := "rh", expires_at := 50,
                     last_activity := 0, is_valid := true }] }
    100 "rt" "newtok" 1 "alice" "a@b.c"
    { users := [{ id := 1, username := "alice", email := "a@b.c",
                  password_hash := "h", login_attempts := 0,
                  locked_until := none, last_login := none,
                  is_active := true }],
      sessions := [{ id := 1, user_id := 1, token_hash := "newtok",
                     refresh_token_hash := "rh",
                     expires_at := 100 + sevenDaysMs,
                     last_activity := 0, is_valid := true }] }
    (by decide)).2.2 200

/-! ### Claim theorems for the Lockout Policy -/

theorem login_failed_step
    (vp : String → String → Bool) (db : DB) (now : Nat)
    (identifier password : String) (u : UserRow)
    (hid : identifier ≠ "") (hpw : password ≠ "")
    (hfind : db.users.find? (fun x =>
        x.username == sanitizeInput identifier ||
        x.email == sanitizeInput identifier) = some u)
    (hact : u.is_active = true)
    (hlock : u.locked_until = none)
    (hvp : vp password u.password_hash = false) :
    login vp db now identifier password =
      (.badCredentials (u.login_attempts + 1),
       { db with users := db.users.map (fun x =>
           if x.id = u.id then
             if 5 ≤ u.login_attempts + 1 then
               { x with login_attempts := u.login_attempts + 1,
                        locked_until := some (now + lockMs) }
             else { x with login_attempts := u.login_attempts + 1 }
           else x) },
       true) := by
  rw [login, if_neg (by simp [hid, hpw])]
  simp only [hfind]
  rw [hact]
  rw [if_neg (by simp)]
  rw [hlock]
  rw [loginVerify, hvp]
  simp only [Bool.false_eq_true, if_false]

theorem login_locked_step
    (vp : String → String → Bool) (db : DB) (now : Nat)
    (identifier password : String) (u : UserRow) (t : Nat)
    (hid : identifier ≠ "") (hpw : password ≠ "")
    (hfind : db.users.find? (fun x =>
        x.username == sanitizeInput identifier ||
        x.email == sanitizeInput identifier) = some u)
    (hact : u.is_active = true)
    (hlock : u.locked_until = some t) (hnow : now < t) :
    login vp db now identifier password =
      (.locked (minutesLeft t now), db, false) := by
  rw [login, if_neg (by simp [hid, hpw])]
  simp only [hfind]
  rw [hact]
  rw [if_neg (by simp)]
  rw [hlock]
  simp only [if_pos hnow]

theorem find?_users_map_update (users : List UserRow) (cid : String)
    (f : UserRow → UserRow)
    (hf : ∀ x, (f x).username = x.username ∧ (f x).email = x.email) :
    (users.map f).find? (fun x => x.username == cid || x.email == cid) =
      (users.find? (fun x => x.username == cid || x.email == cid)).map f := by
  rw [List.find?_map]
  rw [show (fun x : UserRow => x.username == cid || x.email == cid) ∘ f =
    (fun x : UserRow => x.username == cid || x.email == cid) from by
    funext x
    simp [(hf x).1, (hf x).2]]

theorem login_failed_next_find
    (vp : String → String → Bool) (db : DB) (now : Nat)
    (identifier password : String) (u : UserRow)
    (hid : identifier ≠ "") (hpw : password ≠ "")
    (hfind : db.users.find? (fun x =>
        x.username == sanitizeInput identifier ||
        x.email == sanitizeInput identifier) = some u)
    (hact : u.is_active = true)
    (hlock : u.locked_until = none)
    (hvp : vp password u.password_hash = false) :
    (login vp db now identifier password).1 =
      .badCredentials (u.login_attempts + 1) ∧
    ((login vp db now identifier password).2.1).users.find? (fun x =>
        x.username == sanitizeInput identifier ||
        x.email == sanitizeInput identifier) =
      some (if 5 ≤ u.login_attempts + 1 then
        { u with login_attempts := u.login_attempts + 1,
                 locked_until := some (now + lockMs) }
      else { u with login_attempts := u.login_attempts + 1 }) := by
  rw [login_failed_step vp db now identifier password u
    hid hpw hfind hact hlock hvp]
  refine ⟨rfl, ?_⟩
  dsimp only
  rw [find?_users_map_update db.users (sanitizeInput identifier) _
    (fun x => by
      by_cases hxid : x.id = u.id
      · by_cases h5 : 5 ≤ u.login_attempts + 1
        · simp [hxid, h5]
        · simp [hxid, h5]
      · simp [hxid])]
  rw [hfind]
  by_cases h5 : 5 ≤ u.login_attempts + 1
  · simp [h5]
  · simp [h5]

/-- C3: starting from zero failed attempts (unlocked, active), five
consecutive failed password checks leave the identity with
`login_attempts = 5` and `locked_until = now5 + 30 minutes`, a time in
the future; and while `locked_until > now`, a further login attempt is
answered with the account-locked error carrying the remaining minutes,
with the database unchanged and without the bcrypt comparator being
invoked. -/
theorem login_lockout_spec :
    (∀ (vp : String → String → Bool) (db : DB)
        (identifier password : String) (u : UserRow) (t1 t2 t3 t4 t5 : Nat),
      identifier ≠ "" → password ≠ "" →
      db.users.find? (fun x =>
        x.username == sanitizeInput identifier ||
        x.email == sanitizeInput identifier) = some u →
      u.is_active = true → u.locked_until = none → u.login_attempts = 0 →
      vp password u.password_hash = false →
      (login vp ((login vp ((login vp ((login vp
          ((login vp db t1 identifier password).2.1)
          t2 identifier password).2.1)
          t3 identifier password).2.1)
          t4 identifier password).2.1)
          t5 identifier password).1 = .badCredentials 5 ∧
      ∃ u5, ((login vp ((login vp ((login vp ((login vp
          ((login vp db t1 identifier password).2.1)
          t2 identifier password).2.1)
          t3 identifier password).2.1)
          t4 identifier password).2.1)
          t5 identifier password).2.1).users.find? (fun x =>
            x.username == sanitizeInput identifier ||
            x.email == sanitizeInput identifier) = some u5 ∧
        u5.login_attempts = 5 ∧
        u5.locked_until = some (t5 + lockMs) ∧ t5 < t5 + lockMs) ∧
    (∀ (vp : String → String → Bool) (db : DB)
        (identifier password : String) (u : UserRow) (now t : Nat),
      identifier ≠ "" → password ≠ "" →
      db.users.find? (fun x =>
        x.username == sanitizeInput identifier ||
        x.email == sanitizeInput identifier) = some u →
      u.is_active = true → u.locked_until = some t → now < t →
      login vp db now identifier password =
        (.locked (minutesLeft t now), db, false)) := by
  constructor
  · intro vp db identifier password u t1 t2 t3 t4 t5
      hid hpw hfind hact hlock h0 hvp
    have h1 := login_failed_next_find vp db t1 identifier password u
      hid hpw hfind hact hlock hvp
    rw [h0] at h1
    rw [if_neg (by norm_num)] at h1
    have h2 := login_failed_next_find vp _ t2 identifier password
      { u with login_attempts := 0 + 1 } hid hpw h1.2 hact hlock hvp
    rw [if_neg (by norm_num)] at h2
    have h3 := login_failed_next_find vp _ t3 identifier password
      { u with login_attempts := 0 + 1 + 1 } hid hpw h2.2 hact hlock hvp
    rw [if_neg (by norm_num)] at h3
    have h4 := login_failed_next_find vp _ t4 identifier password
      { u with login_attempts := 0 + 1 + 1 + 1 } hid hpw h3.2 hact hlock hvp
    rw [if_neg (by norm_num)] at h4
    have h5 := login_failed_next_find vp _ t5 identifier password
      { u with login_attempts := 0 + 1 + 1 + 1 + 1 } hid hpw h4.2 hact hlock hvp
    rw [if_pos (by norm_num)] at h5
    refine ⟨h5.1, ?_⟩
    refine ⟨_, h5.2, rfl, rfl, ?_⟩
    have hpos : 0 < lockMs := by norm_num [lockMs]
    omega
  · intro vp db identifier password u now t hid hpw hfind hact hlock hnow
    exact login_locked_step vp db now identifier password u t
      hid hpw hfind hact hlock hnow

/-- Witness for C3: five failed attempts against `wAlice` (a hasher that
always rejects) produce attempt number 5 and a lock; a login against the
locked `wDbLocked` store at time 400 is answered with the minutes left,
an unchanged store, and no hasher invocation. -/
theorem login_lockout_spec_witness :
    (login (fun _ _ => false)
      ((login (fun _ _ => false)
        ((login (fun _ _ => false)
          ((login (fun _ _ => false)
            ((login (fun _ _ => false) wDb 1 "alice" "x").2.1)
            2 "alice" "x").2.1)
          3 "alice" "x").2.1)
        4 "alice" "x").2.1)
      5 "alice" "x").1 = .badCredentials 5 ∧
    login (fun _ _ => false) wDbLocked 400 "alice" "x" =
      (.locked (minutesLeft 1000 400), wDbLocked, false) :=
  ⟨(login_lockout_spec.1 (fun _ _ => false) wDb "alice" "x" wAlice
      1 2 3 4 5 (by decide) (by decide) (by decide) rfl rfl rfl rfl).1,
   login_lockout_spec.2 (fun _ _ => false) wDbLocked "alice" "x"
      wAliceLocked 400 1000 (by decide) (by decide) (by decide)
      rfl rfl (by decide)⟩

/-- Counterexample to C4: identity with 5 recorded failures whose lock
(until time 1000) has passed at time 2000.  The next failed attempt is
counted as attempt 6 — not as attempt 1 of a fresh window — and the
account is immediately re-locked until `2000 + 30` minutes. -/
theorem login_lock_expiry_counterexample :
    (login (fun _ _ => false) wDbLocked 2000 "alice" "x").1 =
      .badCredentials 6 ∧
    (login (fun _ _ => false) wDbLocked 2000 "alice" "x").1 ≠
      .badCredentials 1 ∧
    ((login (fun _ _ => false) wDbLocked 2000 "alice" "x").2.1).users.find?
        (fun x => x.username == sanitizeInput "alice" ||
          x.email == sanitizeInput "alice") =
      some { wAliceLocked with login_attempts := 6, locked_until := some (2000 + lockMs) } := by
  decide

theorem login_failed_step_expired
    (vp : String → String → Bool) (db : DB) (now : Nat)
    (identifier password : String) (u : UserRow) (t : Nat)
    (hid : identifier ≠ "") (hpw : password ≠ "")
    (hfind : db.users.find? (fun x =>
        x.username == sanitizeInput identifier ||
        x.email == sanitizeInput identifier) = some u)
    (hact : u.is_active = true)
    (hlock : u.locked_until = some t) (hexp : ¬ now < t)
    (hvp : vp password u.password_hash = false) :
    login vp db now identifier password =
      (.badCredentials (u.login_attempts + 1),
       { db with users := db.users.map (fun x =>
           if x.id = u.id then
             if 5 ≤ u.login_attempts + 1 then
               { x with login_attempts := u.login_attempts + 1,
                        locked_until := some (now + lockMs) }
             else { x with login_attempts := u.login_attempts + 1 }
           else x) },
       true) := by
  rw [login, if_neg (by simp [hid, hpw])]
  simp only [hfind]
  rw [hact]
  rw [if_neg (by simp)]
  rw [hlock]
  simp only [if_neg hexp]
  rw [loginVerify, hvp]
  simp only [Bool.false_eq_true, if_false]

/-- C4 amended: after `lockedUntil` has passed, the next failed attempt
is counted against the persisted counter, which still carries the prior
failures — it becomes attempt `priorAttempts + 1`, not attempt 1 — and
whenever that total is already at the threshold the account is
immediately re-locked for another 30 minutes.  The counter is reset only
by a successful login. -/
theorem login_lock_expiry_carryover
    (vp : String → String → Bool) (db : DB) (now : Nat)
    (identifier password : String) (u : UserRow) (t : Nat)
    (hid : identifier ≠ "") (hpw : password ≠ "")
    (hfind : db.users.find? (fun x =>
        x.username == sanitizeInput identifier ||
        x.email == sanitizeInput identifier) = some u)
    (hact : u.is_active = true)
    (hlock : u.locked_until = some t) (hexp : t ≤ now)
    (hvp : vp password u.password_hash = false) :
    (login vp db now identifier password).1 =
      .badCredentials (u.login_attempts + 1) ∧
    (5 ≤ u.login_attempts + 1 →
      ((login vp db now identifier password).2.1).users.find? (fun x =>
          x.username == sanitizeInput identifier ||
          x.email == sanitizeInput identifier) =
        some { u with login_attempts := u.login_attempts + 1, locked_until := some (now + lockMs) }) := by
  rw [login_failed_step_expired vp db now identifier password u t
    hid hpw hfind hact hlock (by omega) hvp]
  refine ⟨rfl, ?_⟩
  intro h5
  dsimp only
  rw [find?_users_map_update db.users (sanitizeInput identifier) _
    (fun x => by
      by_cases hxid : x.id = u.id
      · by_cases hcap : 5 ≤ u.login_attempts + 1
        · simp [hxid, hcap]
        · simp [hxid, hcap]
      · simp [hxid])]
  rw [hfind]
  simp [h5]

/-- Witness for the amended C4: against `wDbLocked` (5 prior failures,
lock expired at 1000) at time 2000, the failed attempt is counted as
attempt 6 and the account is re-locked until `2000 + 30` minutes. -/
theorem login_lock_expiry_carryover_witness :
    (login (fun _ _ => false) wDbLocked 2000 "alice" "x").1 =
      .badCredentials (wAliceLocked.login_attempts + 1) ∧
    (5 ≤ wAliceLocked.login_attempts + 1 →
      ((login (fun _ _ => false) wDbLocked 2000 "alice" "x").2.1).users.find?
          (fun x => x.username == sanitizeInput "alice" ||
            x.email == sanitizeInput "alice") =
        some { wAliceLocked with login_attempts := wAliceLocked.login_attempts + 1, locked_until := some (2000 + lockMs) }) :=
  login_lock_expiry_carryover (fun _ _ => false) wDbLocked 2000
    "alice" "x" wAliceLocked 1000 (by decide) (by decide) (by decide)
    rfl rfl (by decide) rfl

/-! ### Claim theorems for the Vault Codec and Credential Hasher -/

/-- C6: decrypting the export container produced from a data bundle with
the same passphrase reproduces the bundle; with a different passphrase —
one the passphrase cipher rejects — the import fails with an error
(`none`) instead of returning data.  The CryptoJS passphrase cipher and
the JSON serialization of the bundle are abstract parameters constrained
only by their round-trip behaviour at the exported bundle. -/
theorem exportVault_importVault_roundtrip {α : Type}
    (encP : String → String → String)
    (decP : String → String → Option String)
    (stringifyData : α → String) (parseData : String → Option α)
    (exportKey : String) (ts : String) (data : α) (pw : String)
    (hpwlen : 8 ≤ pw.length) (hpwne : pw ≠ "")
    (hparse : parseData (stringifyData data) = some data)
    (hdec : decP pw (encP pw (stringifyData data)) =
      some (stringifyData data))
    (hctne : encP pw (stringifyData data) ≠ "")
    (hsne : stringifyData data ≠ "") :
    decryptImportData decP parseData exportKey
      (encryptExportData encP stringifyData exportKey ts data (some pw))
      (some pw) = some data ∧
    ∀ pw2, pw2 ≠ "" →
      decP pw2 (encP pw (stringifyData data)) = none →
      decryptImportData decP parseData exportKey
        (encryptExportData encP stringifyData exportKey ts data (some pw))
        (some pw2) = none := by
  constructor
  · simp only [decryptImportData, encryptExportData, lookupTruthy, jsOr,
      if_neg hpwne, List.lookup]
    simp only [show (("version" : String) == "version") = true from rfl,
      show (("data" : String) == "version") = false from rfl,
      show (("data" : String) == "timestamp") = false from rfl,
      show (("data" : String) == "data") = true from rfl]
    simp only [if_neg (show ¬ ("1.0" : String) = "" by decide),
      if_neg hctne, hdec, if_neg hsne, hparse]
  · intro pw2 hpw2 hdec2
    simp only [decryptImportData, encryptExportData, lookupTruthy, jsOr,
      if_neg hpwne, if_neg hpw2, List.lookup]
    simp only [show (("version" : String) == "version") = true from rfl,
      show (("data" : String) == "version") = false from rfl,
      show (("data" : String) == "timestamp") = false from rfl,
      show (("data" : String) == "data") = true from rfl]
    simp only [if_neg (show ¬ ("1.0" : String) = "" by decide),
      if_neg hctne, hdec2]

/-- Witness for C6: a concrete prefixing cipher that accepts exactly the
passphrase `password` and a one-value bundle serialization; the
round-trip succeeds with `password` and the import with `wrongpass`
fails. -/
theorem exportVault_importVault_roundtrip_witness :
    decryptImportData
      (fun k s => if k = "password" && s = "passwordD" then some "D"
        else none)
      (fun s => if s = "D" then some 0 else none) "ek"
      (encryptExportData (fun k s => k ++ s) (fun _ : Nat => "D") "ek"
        "2024-01-01T00:00:00.000Z" 0 (some "password"))
      (some "password") = some 0 ∧
    decryptImportData
      (fun k s => if k = "password" && s = "passwordD" then some "D"
        else none)
      (fun s => if s = "D" then some 0 else none) "ek"
      (encryptExportData (fun k s => k ++ s) (fun _ : Nat => "D") "ek"
        "2024-01-01T00:00:00.000Z" 0 (some "password"))
      (some "wrongpass") = none := by
  have h := exportVault_importVault_roundtrip
    (fun k s => k ++ s)
    (fun k s => if k = "password" && s = "passwordD" then some "D"
      else none)
    (fun _ : Nat => "D") (fun s => if s = "D" then some 0 else none)
    "ek" "2024-01-01T00:00:00.000Z" 0 "password"
    (by decide) (by decide) (by decide) (by decide) (by decide) (by decide)
  exact ⟨h.1, h.2 "wrongpass" (by decide) (by decide)⟩

/-- Counterexample to C9: at a concrete export, the container's field
names are `version`, `timestamp` and `data` — not `version`, `createdAt`
and `payload` as the claim states. -/
theorem exportContainer_fields_counterexample :
    (encryptExportData (fun _ s => s) (fun _ : Nat => "D") "ek"
      "2024-01-01T00:00:00.000Z" 0 (some "password")).map Prod.fst =
      ["version", "timestamp", "data"] ∧
    ¬ ((encryptExportData (fun _ s => s) (fun _ : Nat => "D") "ek"
      "2024-01-01T00:00:00.000Z" 0 (some "password")).map Prod.fst =
      ["version", "createdAt", "payload"]) := by
  decide

/-- C9 amended: every container produced by `encryptExportData` is a
structured document whose fields are named `version` (holding the string
`1.0`), `timestamp` (holding the ISO-8601 export time), and `data`
(holding the passphrase-encrypted serialized payload). -/
theorem encryptExportData_container_shape {α : Type}
    (encP : String → String → String) (stringifyData : α → String)
    (exportKey ts : String) (data : α) (customKey : Option String) :
    (encryptExportData encP stringifyData exportKey ts data
        customKey).map Prod.fst = ["version", "timestamp", "data"] ∧
    (encryptExportData encP stringifyData exportKey ts data
        customKey).lookup "version" = some "1.0" ∧
    (encryptExportData encP stringifyData exportKey ts data
        customKey).lookup "timestamp" = some ts ∧
    (encryptExportData encP stringifyData exportKey ts data
        customKey).lookup "data" =
      some (encP (jsOr customKey exportKey) (stringifyData data)) := by
  refine ⟨rfl, rfl, ?_, ?_⟩
  · simp only [encryptExportData, List.lookup,
      show (("timestamp" : String) == "version") = false from rfl,
      show (("timestamp" : String) == "timestamp") = true from rfl]
  · simp only [encryptExportData, List.lookup,
      show (("data" : String) == "version") = false from rfl,
      show (("data" : String) == "timestamp") = false from rfl,
      show (("data" : String) == "data") = true from rfl]

/-- Counterexample to C7: under a bcrypt comparator that raises an
invalid-digest-format error on a malformed digest, `verifyPassword`
still returns the boolean `false` — the catch block swallows the error —
so it does not raise exactly when the digest is malformed. -/
theorem verifyPassword_counterexample :
    verifyPassword (fun _ h =>
      if h = "notadigest" then .error "InvalidDigestFormat"
      else .ok false) "secret" "notadigest" = .ok false ∧
    ¬ ∃ e, verifyPassword (fun _ h =>
      if h = "notadigest" then .error "InvalidDigestFormat"
      else .ok false) "secret" "notadigest" = .error e := by
  refine ⟨rfl, ?_⟩
  rintro ⟨e, he⟩
  rw [show verifyPassword (fun _ h =>
      if h = "notadigest" then .error "InvalidDigestFormat"
      else .ok false) "secret" "notadigest" = .ok false from rfl] at he
  exact Except.noConfusion he

/-- C7 amended: `verifyPassword` never raises for any secret and digest:
it always produces a boolean; a mismatch reported by the comparator is
returned as that boolean (`false` is a normal result), and a comparator
error — a malformed digest encoding included — is swallowed by the catch
block and also yields `false` rather than an error. -/
theorem verifyPassword_never_raises
    (bcryptCompare : String → String → Except String Bool)
    (password hash : String) :
    (∃ b, verifyPassword bcryptCompare password hash = .ok b) ∧
    (∀ b, bcryptCompare password hash = .ok b →
      verifyPassword bcryptCompare password hash = .ok b) ∧
    (∀ e, bcryptCompare password hash = .error e →
      verifyPassword bcryptCompare password hash = .ok false) := by
  refine ⟨?_, ?_, ?_⟩
  · rcases h : bcryptCompare password hash with e | b
    · exact ⟨false, by simp [verifyPassword, h]⟩
    · exact ⟨b, by simp [verifyPassword, h]⟩
  · intro b hb
    simp [verifyPassword, hb]
  · intro e he
    simp [verifyPassword, he]

/-- Witness for the amended C7: an always-erroring comparator still makes
`verifyPassword` return the boolean `false`. -/
theorem verifyPassword_never_raises_witness :
    verifyPassword (fun _ _ => .error "bad") "secret" "digest" =
      .ok false :=
  (verifyPassword_never_raises (fun _ _ => .error "bad")
    "secret" "digest").2.2 "bad" rfl

end VaultVerse
